import Mathlib

/-!
Shallow embedding of the ecmaos WASM kernel core: the command dispatcher
(`execute_command` in src/core/bios/src/commands/execute.cpp), the four
shell-command handlers `ls`, `cat`, `echo`, `rm`, and the host-boundary
functions `init`, `write_file`, `read_file`, `list_directory` from
src/core/kernel.wasm/src/kernel.cpp.

A C++ `std::string` is modelled as `List Char`.  The emscripten virtual
filesystem is modelled as an association list from paths to file contents,
plus an association list from paths to directory-entry lists (in the
iteration order `readdir` yields them), plus a list of paths on which
opening a stream for writing fails.  Console logging (info / warn / error)
is an explicit log trace in the state.  C++ exceptions escaping a function
are modelled with `Except Unit`: `.error ()` means an exception propagated.
-/

namespace EcmaOS

/-- A C++ `std::string` (which may contain embedded null bytes). -/
abbrev Str := List Char

/-- The null byte terminating C strings. -/
def nullChar : Char := Char.ofNat 0

/-- `strlen`/`c_str` semantics: the bytes of a buffer up to (excluding) the
first null byte. -/
def cstr (s : Str) : Str := s.takeWhile (fun c => !(c == nullChar))

/-- Severity of a console message (`emscripten_console_log` / `_warn` /
`_error`). -/
inductive Level
  | info
  | warn
  | error
deriving DecidableEq, Repr

/-- One console message: its text and severity. -/
abbrev LogEntry := Str × Level

/-- The emscripten virtual filesystem, as the kernel code observes it:
`files` maps a path to its byte content, `dirs` maps a directory path to
its entry names in `readdir` iteration order, and `unwritable` lists paths
for which `std::ofstream` fails to open. -/
structure FS where
  files : List (Str × Str) := []
  dirs : List (Str × List Str) := []
  unwritable : List Str := []
deriving DecidableEq, Repr

/-- Opening a path for reading: the content if the file exists. -/
def FS.file (fs : FS) (p : Str) : Option Str :=
  (fs.files.find? (fun e => e.1 == p)).map (fun e => e.2)

/-- `opendir`: the entry list if the directory exists. -/
def FS.dir (fs : FS) (p : Str) : Option (List Str) :=
  (fs.dirs.find? (fun e => e.1 == p)).map (fun e => e.2)

/-- Writing (creating or truncating) a file with the given content. -/
def FS.setFile (fs : FS) (p c : Str) : FS :=
  { fs with files := (p, c) :: fs.files.filter (fun e => !(e.1 == p)) }

/-- `remove`: deleting a file. -/
def FS.removeFile (fs : FS) (p : Str) : FS :=
  { fs with files := fs.files.filter (fun e => !(e.1 == p)) }

/-- `stat` followed by `S_ISDIR`: `some true` for a directory, `some false`
for a plain file, `none` when `stat` fails. -/
def statIsDir (fs : FS) (p : Str) : Option Bool :=
  if (fs.dirs.find? (fun e => e.1 == p)).isSome then some true
  else if (fs.files.find? (fun e => e.1 == p)).isSome then some false
  else none

/-- Kernel-visible state: the filesystem plus the console log trace. -/
structure St where
  fs : FS := {}
  log : List LogEntry := []
deriving DecidableEq, Repr

/-- Append one console message. -/
def St.push (st : St) (e : LogEntry) : St := { st with log := st.log ++ [e] }

/-- `emscripten_console_log`. -/
def St.info (st : St) (m : Str) : St := st.push (m, Level.info)

/-- `emscripten_console_warn`. -/
def St.warning (st : St) (m : Str) : St := st.push (m, Level.warn)

/-- `emscripten_console_error`. -/
def St.err (st : St) (m : Str) : St := st.push (m, Level.error)

/-- `std::string::find` generalised: index of the first character
satisfying `p`, or `none` (`npos`). -/
def findFirstIdx (p : Char → Bool) : Str → Option Nat
  | [] => none
  | x :: xs => if p x then some 0 else (findFirstIdx p xs).map (fun i => i + 1)

/-- `std::string::find_last_not_of`-style search: index of the last
character satisfying `p`, or `none` (`npos`), computed through the
reversed string. -/
def findLastIdx (p : Char → Bool) (s : Str) : Option Nat :=
  match findFirstIdx p s.reverse with
  | none => none
  | some j => some (s.length - 1 - j)

/-- The character set `" \t"` used by echo's trimming. -/
def isWS (c : Char) : Bool := c == ' ' || c == '\t'

/-- echo's content trim, exactly as coded:
`content.substr(0, content.find_last_not_of(" \t") + 1)`, where
`npos + 1` wraps to `0` so an all-whitespace content becomes empty. -/
def rtrimCode (s : Str) : Str :=
  match findLastIdx (fun c => !(isWS c)) s with
  | some i => s.take (i + 1)
  | none => []

/-- Right trim as the spec words it: trailing spaces and tabs removed. -/
def rtrimSpec (s : Str) : Str := (s.reverse.dropWhile isWS).reverse

/-- Left trim as the spec words it: leading spaces and tabs removed. -/
def ltrimSpec (s : Str) : Str := s.dropWhile isWS

/-! ## The four shell-command handlers (src/core/bios/src/commands, and
ls from src/core/kernel.wasm/src/commands/ls.cpp) -/

/-- `commands::cat` (cat.cpp): usage error on empty argument; open failure
is an error; otherwise the whole file is read (sized by seek-to-end) and
logged through a C-string sink, hence truncated at the first null byte. -/
def cat (args : Str) (st : St) : Int × St :=
  if args = [] then (-1, st.err ("Usage: cat <filename>".toList))
  else
    match st.fs.file args with
    | none => (-1, st.err ("Failed to open file".toList))
    | some content => (0, st.info (cstr content))

/-- `commands::rm` (rm.cpp): usage error on empty argument; `remove`
succeeds exactly when the file exists; note the success path emits no log
message. -/
def rm (args : Str) (st : St) : Int × St :=
  if args = [] then (-1, st.err ("Usage: rm <filename>".toList))
  else
    match st.fs.file args with
    | some _ => (0, { st with fs := st.fs.removeFile args })
    | none => (-1, st.err ("Failed to delete file".toList))

/-- `commands::echo` (echo.cpp): with no `>` the argument is logged
verbatim; with `>` the part before it is right-trimmed via
`find_last_not_of`, and the part after it is left-trimmed via
`filename.substr(filename.find_first_not_of(" \t"))` — when that search
returns `npos` (the part after `>` is empty or all spaces/tabs),
`substr(npos)` throws `std::out_of_range`, modelled as `.error ()`. -/
def echo (args : Str) (st : St) : Except Unit (Int × St) :=
  match findFirstIdx (fun c => c == '>') args with
  | none => Except.ok (0, st.info args)
  | some gt =>
    let content := rtrimCode (args.take gt)
    let fname0 := args.drop (gt + 1)
    match findFirstIdx (fun c => !(isWS c)) fname0 with
    | none => Except.error ()
    | some i =>
      let filename := fname0.drop i
      if filename ∈ st.fs.unwritable then
        Except.ok (-1, st.err ("Failed to open file for writing".toList))
      else
        Except.ok (0, { st with fs := st.fs.setFile filename content })

/-- One logged line of `commands::ls` for a directory entry: the joined
path (a `/` inserted only when the directory path does not already end in
one) is `stat`ed; `d <name>` for directories, `- <name>` for other files,
and the raw name when `stat` fails. -/
def lsEntryLog (fs : FS) (path name : Str) : LogEntry :=
  let full_path := (if path.getLast? = some '/' then path else path ++ ['/']) ++ name
  match statIsDir fs full_path with
  | some true => ('d' :: ' ' :: name, Level.info)
  | some false => ('-' :: ' ' :: name, Level.info)
  | none => (name, Level.info)

/-- `commands::ls` (ls.cpp): empty argument defaults to `"/"`; `opendir`
failure is an error; otherwise each entry is logged and the result is `0`
regardless of per-entry `stat` failures. -/
def ls (args : Str) (st : St) : Int × St :=
  let path := if args = [] then ['/'] else args
  let st1 := ((st.info ("ls command executing".toList)).info
    ("Listing directory:".toList)).info path
  match st.fs.dir path with
  | none => (-1, (st1.err ("Failed to open directory: ".toList)).err path)
  | some entries =>
    (0, entries.foldl (fun s name => s.push (lsEntryLog st.fs path name)) st1)

/-! ## The dispatcher (execute.cpp) -/

/-- The split performed by `execute_command`: at the first space character
(`command.find(' ')`), the prefix is the command name, the suffix after
the space is the argument (empty when there is no space). -/
def splitCmd (command : Str) : Str × Str :=
  match findFirstIdx (fun c => c == ' ') command with
  | some i => (command.take i, command.drop (i + 1))
  | none => (command, [])

/-- `commands::execute_command` (execute.cpp): split at the first space,
exact-match lookup among the four registered names, `Unknown command`
error otherwise.  An exception thrown by a handler propagates (there is no
catch in the dispatcher). -/
def execute_command (command : Str) (st : St) : Except Unit (Int × St) :=
  let p := splitCmd command
  if p.1 = "ls".toList then Except.ok (ls p.2 st)
  else if p.1 = "cat".toList then Except.ok (cat p.2 st)
  else if p.1 = "echo".toList then echo p.2 st
  else if p.1 = "rm".toList then Except.ok (rm p.2 st)
  else Except.ok (-1, st.err ("Unknown command".toList))

/-! ## Host boundary layer (kernel.cpp) -/

/-- The `KernelState` enum class, declared in this order. -/
inductive KernelState
  | BOOTING
  | RUNNING
  | PANIC
  | SHUTDOWN
deriving DecidableEq, Repr

/-- `static_cast<int>` of a `KernelState`: C++ assigns enumerators
consecutive values from 0 in declaration order. -/
def KernelState.toCInt : KernelState → Int
  | .BOOTING => 0
  | .RUNNING => 1
  | .PANIC => 2
  | .SHUTDOWN => 3

/-- `init` (kernel.cpp): installs the console shim, logs two messages and
returns `static_cast<int>(KernelState::RUNNING)`. -/
def init (st : St) : Int × St :=
  (KernelState.RUNNING.toCInt,
    (st.info ("Kernel initializing...".toList)).warning
      ("This is an experimental WASM kernel".toList))

/-- `write_file` (kernel.cpp): opens the path in binary write mode (fails
on `unwritable` paths), then writes `strlen(content)` bytes — content is
truncated at its first null byte. -/
def write_file (st : St) (path content : Str) : Int × St :=
  if path ∈ st.fs.unwritable then
    (-1, st.err ("Failed to open file for writing".toList))
  else
    (0, ({ st with fs := st.fs.setFile path (cstr content) }).info
      ("File written successfully".toList))

/-- `read_file` (kernel.cpp): `none` models the null return.  Open failure
and malloc failure (the `allocOk` oracle) return null; otherwise the
buffer holds the exact file bytes (null-terminated at the end). -/
def read_file (allocOk : Bool) (st : St) (path : Str) : Option Str × St :=
  match st.fs.file path with
  | none => (none, st.err ("Failed to open file for reading".toList))
  | some content =>
    if allocOk then (some content, st)
    else (none, st.err ("Failed to allocate memory".toList))

/-- `list_directory` (kernel.cpp): null on `opendir` failure or malloc
failure; otherwise every entry name followed by a newline, concatenated in
iteration order. -/
def list_directory (allocOk : Bool) (st : St) (path : Str) : Option Str × St :=
  match st.fs.dir path with
  | none => (none, st.err ("Failed to open directory".toList))
  | some entries =>
    let result := entries.foldl (fun acc name => acc ++ name ++ ['\n']) []
    if allocOk then (some result, st)
    else (none, st.err ("Failed to allocate memory for directory listing".toList))

/-! ## Concrete states used to instantiate the theorems -/

/-- A state holding one file `f` with content `h`. -/
def stF : St :=
  { fs := { files := [(['f'], ['h'])], dirs := [], unwritable := [] }, log := [] }

/-- A state holding one file `f` whose content has an embedded null byte. -/
def stNul : St :=
  { fs := { files := [(['f'], ['h', nullChar, 'i'])], dirs := [], unwritable := [] },
    log := [] }

/-- A state holding one empty file `e`. -/
def stE : St :=
  { fs := { files := [(['e'], [])], dirs := [], unwritable := [] }, log := [] }

/-- A state holding one directory `/` with entries `.` and `..`. -/
def stD : St :=
  { fs := { files := [], dirs := [(['/'], [['.'], ['.', '.']])], unwritable := [] },
    log := [] }

/-! ## Helper lemmas relating the coded index searches to the spec's
takeWhile/dropWhile formulations -/

theorem findFirstIdx_lt_length (p : Char → Bool) (s : Str) (i : Nat)
    (h : findFirstIdx p s = some i) : i < s.length := by
  induction s generalizing i with
  | nil => simp [findFirstIdx] at h
  | cons x xs ih =>
    simp only [findFirstIdx] at h
    by_cases hp : p x
    · simp [hp] at h
      simp only [List.length_cons]
      omega
    · simp [hp] at h
      cases hfi : findFirstIdx p xs with
      | none => rw [hfi] at h; simp at h
      | some j =>
        rw [hfi] at h
        simp at h
        have := ih j hfi
        simp only [List.length_cons]
        omega

theorem take_findFirstIdx_some (p : Char → Bool) (s : Str) (i : Nat)
    (h : findFirstIdx p s = some i) :
    s.take i = s.takeWhile (fun c => !(p c)) := by
  induction s generalizing i with
  | nil => simp [findFirstIdx] at h
  | cons x xs ih =>
    simp only [findFirstIdx] at h
    by_cases hp : p x
    · simp [hp] at h
      simp [← h, List.takeWhile_cons, hp]
    · simp [hp] at h
      cases hfi : findFirstIdx p xs with
      | none => rw [hfi] at h; simp at h
      | some j =>
        rw [hfi] at h
        simp at h
        rw [← h]
        simp [List.takeWhile_cons, hp, ih j hfi]

theorem takeWhile_findFirstIdx_none (p : Char → Bool) (s : Str)
    (h : findFirstIdx p s = none) :
    s.takeWhile (fun c => !(p c)) = s := by
  induction s with
  | nil => simp
  | cons x xs ih =>
    simp only [findFirstIdx] at h
    by_cases hp : p x
    · simp [hp] at h
    · simp [hp] at h
      cases hfi : findFirstIdx p xs with
      | none => simp [List.takeWhile_cons, hp, ih hfi]
      | some j => rw [hfi] at h; simp at h

theorem drop_findFirstIdx_some (p : Char → Bool) (s : Str) (i : Nat)
    (h : findFirstIdx p s = some i) :
    s.drop i = s.dropWhile (fun c => !(p c)) := by
  induction s generalizing i with
  | nil => simp [findFirstIdx] at h
  | cons x xs ih =>
    simp only [findFirstIdx] at h
    by_cases hp : p x
    · simp [hp] at h
      simp [← h, List.dropWhile_cons, hp]
    · simp [hp] at h
      cases hfi : findFirstIdx p xs with
      | none => rw [hfi] at h; simp at h
      | some j =>
        rw [hfi] at h
        simp at h
        rw [← h]
        simp [List.dropWhile_cons, hp, ih j hfi]

theorem dropWhile_findFirstIdx_none (p : Char → Bool) (s : Str)
    (h : findFirstIdx p s = none) :
    s.dropWhile (fun c => !(p c)) = [] := by
  induction s with
  | nil => simp
  | cons x xs ih =>
    simp only [findFirstIdx] at h
    by_cases hp : p x
    · simp [hp] at h
    · simp [hp] at h
      cases hfi : findFirstIdx p xs with
      | none => simp [List.dropWhile_cons, hp, ih hfi]
      | some j => rw [hfi] at h; simp at h

theorem dropSucc_findFirstIdx_some (p : Char → Bool) (s : Str) (i : Nat)
    (h : findFirstIdx p s = some i) :
    s.drop (i + 1) = (s.dropWhile (fun c => !(p c))).drop 1 := by
  rw [← drop_findFirstIdx_some p s i h, ← List.drop_drop]

/-- The dispatcher's split, in the spec's words: the name is the prefix of
characters before the first space, the argument is what follows that
space (empty when there is no space). -/
theorem splitCmd_eq (command : Str) :
    splitCmd command
      = (command.takeWhile (fun c => !(c == ' ')),
         (command.dropWhile (fun c => !(c == ' '))).drop 1) := by
  cases h : findFirstIdx (fun c => c == ' ') command with
  | none =>
    rw [takeWhile_findFirstIdx_none _ _ h, dropWhile_findFirstIdx_none _ _ h]
    simp [splitCmd, h]
  | some i =>
    rw [← take_findFirstIdx_some _ _ _ h, ← dropSucc_findFirstIdx_some _ _ _ h]
    simp [splitCmd, h]

theorem not_not_isWS : (fun c => !(!(isWS c))) = isWS := by
  funext c
  exact Bool.not_not _

/-- The coded right trim (`find_last_not_of` plus `substr`, with the
`npos + 1` wrap to `0`) equals removal of trailing spaces and tabs. -/
theorem rtrimCode_eq (s : Str) : rtrimCode s = rtrimSpec s := by
  unfold rtrimCode findLastIdx rtrimSpec
  cases h : findFirstIdx (fun c => !(isWS c)) s.reverse with
  | none =>
    have h2 := dropWhile_findFirstIdx_none _ _ h
    rw [not_not_isWS] at h2
    rw [h2]
    rfl
  | some j =>
    have hj : j < s.length := by
      have := findFirstIdx_lt_length _ _ _ h
      rwa [List.length_reverse] at this
    have h2 := drop_findFirstIdx_some _ _ _ h
    rw [not_not_isWS] at h2
    rw [← h2, List.drop_reverse, List.reverse_reverse]
    have harith : s.length - 1 - j + 1 = s.length - j := by omega
    show List.take (s.length - 1 - j + 1) s = List.take (s.length - j) s
    rw [harith]

theorem ltrimSpec_of_findFirstIdx_some (s : Str) (i : Nat)
    (h : findFirstIdx (fun c => !(isWS c)) s = some i) :
    s.drop i = ltrimSpec s := by
  have h2 := drop_findFirstIdx_some _ _ _ h
  rw [not_not_isWS] at h2
  exact h2

theorem ltrimSpec_nil_of_findFirstIdx_none (s : Str)
    (h : findFirstIdx (fun c => !(isWS c)) s = none) :
    ltrimSpec s = [] := by
  have h2 := dropWhile_findFirstIdx_none _ _ h
  rwa [not_not_isWS] at h2

/-- Looking up a path right after writing it yields the written content. -/
theorem FS.file_setFile (fs : FS) (p c : Str) : (fs.setFile p c).file p = some c := by
  simp [FS.file, FS.setFile]

/-- Folding log pushes over a list appends the mapped entries. -/
theorem foldl_push_log (f : Str → LogEntry) (l : List Str) (st : St) :
    l.foldl (fun s name => s.push (f name)) st
      = { st with log := st.log ++ l.map f } := by
  induction l generalizing st with
  | nil => simp
  | cons x xs ih =>
    rw [List.foldl_cons, ih]
    simp [St.push]

/-- The directory-listing accumulation is the flattened map of
name-plus-newline. -/
theorem foldl_append_newline (l : List Str) (acc : Str) :
    l.foldl (fun a name => a ++ (name ++ ['\n'])) acc
      = acc ++ (l.map (fun n => n ++ ['\n'])).flatten := by
  induction l generalizing acc with
  | nil => simp
  | cons x xs ih =>
    rw [List.foldl_cons, ih]
    simp

/-- Contents without a null byte survive `strlen` unchanged. -/
theorem cstr_eq_self (c : Str) (h : nullChar ∉ c) : cstr c = c := by
  unfold cstr
  rw [List.takeWhile_eq_self_iff]
  intro x hx
  simp only [Bool.not_eq_true']
  exact beq_eq_false_iff_ne.mpr (fun he => h (he ▸ hx))

/-! ## Claim theorems -/

/-- Claim C7: `init` always returns the integer 1, the numeric value of
state `RUNNING` under the declaration order `BOOTING=0, RUNNING=1,
PANIC=2, SHUTDOWN=3`, on every call including repeated calls (the state
argument ranges over all states, in particular post-`init` ones). -/
theorem C7_init_returns_running (st : St) :
    (init st).1 = 1 ∧
    (init st).1 = KernelState.RUNNING.toCInt ∧
    KernelState.BOOTING.toCInt = 0 ∧ KernelState.RUNNING.toCInt = 1 ∧
    KernelState.PANIC.toCInt = 2 ∧ KernelState.SHUTDOWN.toCInt = 3 :=
  ⟨rfl, rfl, rfl, rfl, rfl, rfl⟩

/-- Claim C1 (code bug): the claim states no exception ever propagates
out of a handler through dispatch, in particular that `echo` terminates
normally when the part after the first `>` is empty.  The code instead
evaluates `filename.substr(npos)` there, which throws
`std::out_of_range`; the exception escapes `execute_command`, which has
no handler.  This theorem evaluates the dispatcher at the failing input
`echo >`. -/
theorem C1_echo_exception_propagates :
    execute_command ("echo >".toList) {} = Except.error () := rfl

/-- Claim C4, counterexample: at argument `hi >` (text after the first
`>` is empty), `echo` does not return any integer status — it throws
(`Except.error`), contradicting the claim that it returns 0 when the
file opens and a negative value when it does not. -/
theorem C4_counterexample_echo_raises :
    echo ("hi >".toList) {} = Except.error () := rfl

/-- Claim C4 as amended: for every argument with no `>`, `echo` logs the
argument verbatim, changes no file and returns 0; for every argument
whose first `>` is at position `gt` and whose remainder after `>` still
contains a non-space/tab character (otherwise `echo` throws, see the
counterexample), the content before `>` right-trimmed of spaces/tabs is
written verbatim, with nothing appended, to the file named by the
remainder left-trimmed of spaces/tabs, truncating previous content, and
`echo` returns 0 exactly when that file opens, a negative value
otherwise. -/
theorem C4_echo_spec (args : Str) (st : St) :
    (findFirstIdx (fun c => c == '>') args = none →
      echo args st = Except.ok (0, st.info args) ∧ (st.info args).fs = st.fs) ∧
    (∀ gt, findFirstIdx (fun c => c == '>') args = some gt →
      ltrimSpec (args.drop (gt + 1)) ≠ [] →
      ((ltrimSpec (args.drop (gt + 1)) ∈ st.fs.unwritable →
        echo args st
          = Except.ok (-1, st.err ("Failed to open file for writing".toList))) ∧
       (ltrimSpec (args.drop (gt + 1)) ∉ st.fs.unwritable →
        echo args st
          = Except.ok (0, { fs := st.fs.setFile (ltrimSpec (args.drop (gt + 1))) (rtrimSpec (args.take gt)), log := st.log })))) := by
  refine ⟨fun h => ⟨by simp [echo, h], rfl⟩, fun gt hgt hne => ?_⟩
  cases hfi : findFirstIdx (fun c => !(isWS c)) (args.drop (gt + 1)) with
  | none => exact absurd (ltrimSpec_nil_of_findFirstIdx_none _ hfi) hne
  | some i =>
    have hdrop := ltrimSpec_of_findFirstIdx_some (args.drop (gt + 1)) i hfi
    constructor
    · intro hmem
      rw [← hdrop] at hmem
      simp [echo, hgt, hfi, hmem, hdrop]
      rwa [hdrop] at hmem
    · intro hmem
      rw [← hdrop] at hmem
      simp [echo, hgt, hfi, hmem, hdrop, rtrimCode_eq]
      rwa [hdrop] at hmem

/-- Claim C4, witness: `echo x > f` on the empty state writes content `x`
to file `f` with no log message and returns 0. -/
theorem C4_echo_spec_witness :
    echo ("x > f".toList) {}
      = Except.ok (0, { fs := FS.setFile {} ['f'] ['x'], log := [] }) := by
  have hgt : findFirstIdx (fun c => c == '>') ("x > f".toList) = some 2 := by decide
  have hne : ltrimSpec (("x > f".toList).drop (2 + 1)) ≠ [] := by decide
  have hmem : ltrimSpec (("x > f".toList).drop (2 + 1)) ∉ ({} : St).fs.unwritable := by
    decide
  exact ((C4_echo_spec ("x > f".toList) {}).2 2 hgt hne).2 hmem

/-- Claim C2: a successful `write_file p c` followed by `read_file p`
(with allocation succeeding) returns a non-null buffer whose bytes are
exactly `c` when `c` contains no null byte, and in general `c` truncated
at its first null byte, because `write_file` measures length with
`strlen`. -/
theorem C2_write_read_roundtrip (p c : Str) (st : St)
    (hw : (write_file st p c).1 = 0) :
    (read_file true (write_file st p c).2 p).1 = some (cstr c) ∧
    (nullChar ∉ c → (read_file true (write_file st p c).2 p).1 = some c) := by
  by_cases hmem : p ∈ st.fs.unwritable
  · exfalso
    simp [write_file, hmem] at hw
  · have hfile : (write_file st p c).2.fs.file p = some (cstr c) := by
      simp [write_file, hmem, St.info, St.push, FS.file_setFile]
    refine ⟨by simp [read_file, hfile], fun hn => by simp [read_file, hfile, cstr_eq_self c hn]⟩

/-- Claim C2, witness: writing `hi` to `p` in the empty state succeeds
and reading it back yields exactly `hi`. -/
theorem C2_write_read_roundtrip_witness :
    (write_file ({} : St) ['p'] ("hi".toList)).1 = 0 ∧
    (read_file true (write_file ({} : St) ['p'] ("hi".toList)).2 ['p']).1
      = some ("hi".toList) :=
  ⟨rfl, (C2_write_read_roundtrip ['p'] ("hi".toList) {} rfl).2 (by decide)⟩

/-- Claim C3: dispatch splits the raw line at the first space character
into a name (prefix before the space, or the whole line) and an argument
(the remainder after the space, or empty), looks the name up by exact
string match among `ls`, `cat`, `echo`, `rm` and invokes that handler;
any other name logs an `Unknown command` error, returns a negative
status, and leaves the filesystem untouched. -/
theorem C3_dispatch_exact_match (line : Str) (st : St) :
    (line.takeWhile (fun c => !(c == ' ')) = "ls".toList →
      execute_command line st
        = Except.ok (ls ((line.dropWhile (fun c => !(c == ' '))).drop 1) st)) ∧
    (line.takeWhile (fun c => !(c == ' ')) = "cat".toList →
      execute_command line st
        = Except.ok (cat ((line.dropWhile (fun c => !(c == ' '))).drop 1) st)) ∧
    (line.takeWhile (fun c => !(c == ' ')) = "echo".toList →
      execute_command line st
        = echo ((line.dropWhile (fun c => !(c == ' '))).drop 1) st) ∧
    (line.takeWhile (fun c => !(c == ' ')) = "rm".toList →
      execute_command line st
        = Except.ok (rm ((line.dropWhile (fun c => !(c == ' '))).drop 1) st)) ∧
    (line.takeWhile (fun c => !(c == ' ')) ≠ "ls".toList →
      line.takeWhile (fun c => !(c == ' ')) ≠ "cat".toList →
      line.takeWhile (fun c => !(c == ' ')) ≠ "echo".toList →
      line.takeWhile (fun c => !(c == ' ')) ≠ "rm".toList →
      execute_command line st = Except.ok (-1, st.err ("Unknown command".toList)) ∧
      (st.err ("Unknown command".toList)).fs = st.fs) := by
  refine ⟨?_, ?_, ?_, ?_, ?_⟩
  · intro h
    simp only [execute_command, splitCmd_eq]
    rw [h, if_pos rfl]
  · intro h
    simp only [execute_command, splitCmd_eq]
    rw [h, if_neg (by decide), if_pos rfl]
  · intro h
    simp only [execute_command, splitCmd_eq]
    rw [h, if_neg (by decide), if_neg (by decide), if_pos rfl]
  · intro h
    simp only [execute_command, splitCmd_eq]
    rw [h, if_neg (by decide), if_neg (by decide), if_neg (by decide), if_pos rfl]
  · intro h1 h2 h3 h4
    simp only [execute_command, splitCmd_eq]
    rw [if_neg h1, if_neg h2, if_neg h3, if_neg h4]
    exact ⟨rfl, rfl⟩

/-- Claim C3, witness: the unregistered name `foo` yields the uniform
unknown-command failure with no filesystem change. -/
theorem C3_dispatch_witness :
    execute_command ("foo bar".toList) {}
      = Except.ok (-1, St.err {} ("Unknown command".toList)) ∧
    (St.err {} ("Unknown command".toList)).fs = ({} : St).fs :=
  (C3_dispatch_exact_match ("foo bar".toList) {}).2.2.2.2
    (by decide) (by decide) (by decide) (by decide)

/-- Claim C5, counterexample: on a file whose content holds an embedded
null byte, `cat` succeeds but the single logged message is the content
truncated at the first null — not the full content as the claim
states. -/
theorem C5_counterexample_null_truncated_log :
    (cat ['f'] stNul).1 = 0 ∧
    (cat ['f'] stNul).2.log = [(['h'], Level.info)] ∧
    (['h'] : Str) ≠ ['h', nullChar, 'i'] :=
  ⟨rfl, rfl, by decide⟩

/-- Claim C5 as amended: `cat` returns a negative value exactly when the
argument is empty or the file cannot be opened (the full-length read in
the model always succeeds once the file is open); otherwise it reads the
whole file and logs, as a single message, the content truncated at its
first null byte (the full content whenever the content is null-free),
returning 0. -/
theorem C5_cat_spec (args : Str) (st : St) :
    ((cat args st).1 < 0 ↔ (args = [] ∨ st.fs.file args = none)) ∧
    (∀ content, st.fs.file args = some content → args ≠ [] →
      cat args st = (0, st.info (cstr content))) := by
  constructor
  · by_cases ha : args = []
    · simp [cat, ha]
    · cases hf : st.fs.file args with
      | none => simp [cat, ha, hf]
      | some content => simp [cat, ha, hf]
  · intro content hf hne
    simp [cat, hf, hne]

/-- Claim C5, witness: `cat f` on a state holding file `f` with null-free
content `h` returns 0 and logs exactly `h`. -/
theorem C5_cat_spec_witness :
    cat ['f'] stF = (0, St.info stF ['h']) :=
  (C5_cat_spec ['f'] stF).2 ['h'] rfl (by decide)

/-- Claim C6: `ls` uses the root path `/` when the argument is empty,
returns a negative value exactly when the path cannot be opened as a
directory, and otherwise returns 0 regardless of per-entry failures,
logging for each entry (including `.` and `..`) one line `d <name>` for
directories and `- <name>` otherwise — the type determined by a `stat` of
the joined path (a `/` inserted only when the directory path does not end
in one) — and just the raw name when that query fails. -/
theorem C6_ls_spec (args : Str) (st : St) :
    (st.fs.dir (if args = [] then ['/'] else args) = none →
      (ls args st).1 = -1 ∧ (ls args st).2.fs = st.fs) ∧
    (∀ entries, st.fs.dir (if args = [] then ['/'] else args) = some entries →
      (ls args st).1 = 0 ∧ (ls args st).2.fs = st.fs ∧
      (ls args st).2.log
        = st.log ++ [("ls command executing".toList, Level.info), ("Listing directory:".toList, Level.info), (if args = [] then ['/'] else args, Level.info)] ++ entries.map (lsEntryLog st.fs (if args = [] then ['/'] else args))) := by
  constructor
  · intro hd
    simp [ls, hd, St.info, St.err, St.push]
  · intro entries hd
    simp only [ls, hd]
    rw [foldl_push_log (lsEntryLog st.fs (if args = [] then ['/'] else args))]
    simp [St.info, St.push]

/-- Claim C6, witness: `ls` with empty argument on a state whose root
directory holds entries `.` and `..` returns 0 and logs the preamble
followed by one line per entry. -/
theorem C6_ls_witness :
    (ls [] stD).1 = 0 ∧ (ls [] stD).2.fs = stD.fs ∧
    (ls [] stD).2.log
      = [("ls command executing".toList, Level.info), ("Listing directory:".toList, Level.info), (['/'], Level.info), (['.'], Level.info), (['.', '.'], Level.info)] :=
  (C6_ls_spec [] stD).2 [['.'], ['.', '.']] rfl

/-- Claim C8, counterexample: `rm` deleting an existing file succeeds
with the log unchanged, and `echo` with a redirect succeeds writing the
file with the log unchanged — neither success emits any log message,
contrary to the claim. -/
theorem C8_counterexample_silent_successes :
    (rm ['f'] stF).1 = 0 ∧ (rm ['f'] stF).2.log = stF.log ∧
    echo ("x > f".toList) stF
      = Except.ok (0, { fs := stF.fs.setFile ['f'] ['x'], log := stF.log }) :=
  ⟨rfl, rfl, rfl⟩

/-- Claim C8 as amended: failure outcomes of `rm` emit exactly one log
message, but the two successes the claim singles out emit none: `rm` on
successful deletion leaves the log unchanged, and so does `echo` on a
successful redirect write (return value 0 with a `>` present). -/
theorem C8_logging_spec (args : Str) (st : St) :
    ((rm args st).1 = 0 → (rm args st).2.log = st.log) ∧
    ((rm args st).1 ≠ 0 → (rm args st).2.log.length = st.log.length + 1) ∧
    (∀ gt r, findFirstIdx (fun c => c == '>') args = some gt →
      echo args st = Except.ok r → r.1 = 0 → r.2.log = st.log) := by
  refine ⟨?_, ?_, ?_⟩
  · intro h0
    by_cases ha : args = []
    · simp [rm, ha] at h0
    · cases hf : st.fs.file args with
      | some c => simp [rm, ha, hf]
      | none => simp [rm, ha, hf] at h0
  · intro h0
    by_cases ha : args = []
    · simp [rm, ha, St.err, St.push]
    · cases hf : st.fs.file args with
      | some c => simp [rm, ha, hf] at h0
      | none => simp [rm, ha, hf, St.err, St.push]
  · intro gt r hgt hok h0
    cases hfi : findFirstIdx (fun c => !(isWS c)) (args.drop (gt + 1)) with
    | none => simp [echo, hgt, hfi] at hok
    | some i =>
      by_cases hmem : List.drop (gt + 1 + i) args ∈ st.fs.unwritable
      · simp [echo, hgt, hfi, hmem] at hok
        subst hok
        simp at h0
      · simp [echo, hgt, hfi, hmem] at hok
        subst hok
        rfl

/-- Claim C8, witness: the amended statement instantiated — a successful
`rm f` leaves the log unchanged, a failing `rm` adds one message, and a
successful `echo x > f` leaves the log unchanged. -/
theorem C8_logging_spec_witness :
    (rm ['f'] stF).2.log = stF.log ∧
    (rm [] stF).2.log.length = stF.log.length + 1 ∧
    (((0 : Int), ({ fs := FS.setFile {} ['f'] ['x'], log := [] } : St)).2.log
      = ({} : St).log) :=
  ⟨(C8_logging_spec ['f'] stF).1 rfl,
   (C8_logging_spec [] stF).2.1 (by decide),
   (C8_logging_spec ("x > f".toList) {}).2.2 2
     ((0 : Int), ({ fs := FS.setFile {} ['f'] ['x'], log := [] } : St))
     (by decide) rfl rfl⟩

/-- Claim C9: `list_directory` returns null exactly when the directory
cannot be opened or the result buffer cannot be allocated; otherwise the
buffer is every entry name (including `.` and `..`) each followed by a
newline, concatenated in iteration order, with no sorting and no
filtering. -/
theorem C9_list_directory_spec (allocOk : Bool) (st : St) (path : Str) :
    ((list_directory allocOk st path).1 = none
      ↔ (st.fs.dir path = none ∨ allocOk = false)) ∧
    (∀ entries, st.fs.dir path = some entries → allocOk = true →
      (list_directory allocOk st path).1
        = some ((entries.map (fun n => n ++ ['\n'])).flatten)) := by
  constructor
  · cases hd : st.fs.dir path with
    | none => cases allocOk <;> simp [list_directory, hd]
    | some entries => cases allocOk <;> simp [list_directory, hd]
  · intro entries hd ha
    subst ha
    simp [list_directory, hd, foldl_append_newline]

/-- Claim C9, witness: listing the root of a state whose root directory
iterates `.` then `..` yields the buffer `.\n..\n`. -/
theorem C9_list_directory_witness :
    (list_directory true stD ['/']).1 = some ['.', '\n', '.', '.', '\n'] :=
  (C9_list_directory_spec true stD ['/']).2 [['.'], ['.', '.']] rfl rfl

/-- Claim C10: `read_file` on an existing zero-byte file (with allocation
succeeding) returns a non-null buffer holding the empty string, and the
null return happens exactly on open failure or allocation failure. -/
theorem C10_read_file_empty (allocOk : Bool) (st : St) (p : Str) :
    (st.fs.file p = some [] → (read_file true st p).1 = some []) ∧
    ((read_file allocOk st p).1 = none
      ↔ (st.fs.file p = none ∨ allocOk = false)) := by
  constructor
  · intro h
    simp [read_file, h]
  · cases hf : st.fs.file p with
    | none => cases allocOk <;> simp [read_file, hf]
    | some content => cases allocOk <;> simp [read_file, hf]

/-- Claim C10, witness: reading the existing empty file `e` returns a
non-null empty buffer. -/
theorem C10_read_file_empty_witness :
    (read_file true stE ['e']).1 = some [] :=
  (C10_read_file_empty true stE ['e']).1 rfl

end EcmaOS
